import Mathlib

/-!
Verification of the proc-ctl port/process query engine.

This file gives a shallow embedding, in Lean, of the library's core logic:
the `PortQuery` / `ProcQuery` configuration objects, the per-platform
`list_ports_for_pid` table readers (Linux, Windows, macOS), the Windows
growable-buffer retry loops `load_tcp_table` / `load_udp_table`, the macOS
`lsof` byte-stream parsers `find_ports_v4` / `find_ports_v6`, and the retry
decorators.  OS surfaces (procfs tables, the Windows extended-table API,
`lsof` output) are abstracted as explicit environment values; machine
integers are `Nat` with explicit truncation where the source truncates.
Theorems about the embedding settle the specification's claims.
-/

namespace ProcCtl

/-- A transport port tagged with its owning protocol (src/types.rs). -/
inductive ProtocolPort where
  | Tcp (port : Nat)
  | Udp (port : Nat)
deriving DecidableEq, Repr

/-- The closed error taxonomy (src/error.rs).  The platform-specific payload
of `ProcessError` is abstracted as the error's display text. -/
inductive ProcCtlError where
  | ProcessError (msg : String)
  | ConfigurationError (msg : String)
  | TooFewPorts (found : List ProtocolPort) (expected : Nat)
  | TooFewChildren (found : Nat) (expected : Nat)
deriving DecidableEq, Repr

/-- The port query configuration (src/port_query.rs, struct PortQuery). -/
structure PortQuery where
  ipv4_addresses : Bool
  ipv6_addresses : Bool
  tcp_addresses : Bool
  udp_addresses : Bool
  process_id : Option Nat
  min_num_ports : Option Nat
deriving DecidableEq, Repr

/-- PortQuery::new. -/
def PortQuery.new : PortQuery :=
  { ipv4_addresses := true
    ipv6_addresses := true
    tcp_addresses := true
    udp_addresses := true
    process_id := none
    min_num_ports := none }

/-- PortQuery::ip_v4_only. -/
def PortQuery.ip_v4_only (q : PortQuery) : PortQuery :=
  { q with ipv4_addresses := true, ipv6_addresses := false }

/-- PortQuery::ip_v6_only. -/
def PortQuery.ip_v6_only (q : PortQuery) : PortQuery :=
  { q with ipv4_addresses := false, ipv6_addresses := true }

/-- PortQuery::tcp_only. -/
def PortQuery.tcp_only (q : PortQuery) : PortQuery :=
  { q with tcp_addresses := true, udp_addresses := false }

/-- PortQuery::udp_only. -/
def PortQuery.udp_only (q : PortQuery) : PortQuery :=
  { q with tcp_addresses := false, udp_addresses := true }

/-- PortQuery::expect_min_num_ports. -/
def PortQuery.expect_min_num_ports (q : PortQuery) (num_ports : Nat) : PortQuery :=
  { q with min_num_ports := some num_ports }

/-- PortQuery::process_id. -/
def PortQuery.process_id_set (q : PortQuery) (pid : Nat) : PortQuery :=
  { q with process_id := some pid }

/-- A spawned child handle, exposing only its OS-assigned pid
(std::process::Child at the boundary used by the library). -/
structure Child where
  id : Nat
deriving DecidableEq, Repr

/-- PortQuery::process_id_from_child: reads the child's pid eagerly. -/
def PortQuery.process_id_from_child (q : PortQuery) (child : Child) : PortQuery :=
  q.process_id_set child.id

/-- resolve_pid (src/common.rs): the `MaybeHasPid` trait is modelled by
passing the query's `process_id` field directly. -/
def resolve_pid (maybePid : Option Nat) : Except ProcCtlError Nat :=
  match maybePid with
  | some pid => .ok pid
  | none => .error (.ConfigurationError "unable to resolve a pid")

/-! ## Windows table reader -/

/-- One row of MIB_TCPTABLE_OWNER_PID / MIB_TCP6TABLE_OWNER_PID, reduced to
the fields the reader touches plus the state field it ignores. -/
structure WinTcpRow where
  dwState : Nat
  dwLocalPort : Nat
  dwOwningPid : Nat
deriving DecidableEq, Repr

/-- One row of MIB_UDPTABLE_OWNER_PID / MIB_UDP6TABLE_OWNER_PID. -/
structure WinUdpRow where
  dwLocalPort : Nat
  dwOwningPid : Nat
deriving DecidableEq, Repr

/-- The MIB_TCP_STATE value for a listening socket in the Windows API. -/
def MIB_TCP_STATE_LISTEN : Nat := 2

/-- The four Windows tables for the requested combinations, each either the
successfully loaded + reinterpreted row array or the load failure's text. -/
structure WinEnv where
  tcp4 : Except String (List WinTcpRow)
  tcp6 : Except String (List WinTcpRow)
  udp4 : Except String (List WinUdpRow)
  udp6 : Except String (List WinUdpRow)

/-- The Windows TCP row walk (port_query.rs:194-199, 208-213): every row
whose owning pid matches emits `Tcp(dwLocalPort as u16)`; `dwState` is never
inspected. -/
def winTcpMatches (pid : Nat) (rows : List WinTcpRow) : List ProtocolPort :=
  rows.filterMap fun r =>
    if r.dwOwningPid = pid then some (ProtocolPort.Tcp (r.dwLocalPort % 65536)) else none

/-- The Windows UDP row walk (port_query.rs:224-229, 238-243): the source
pushes `ProtocolPort::Tcp(row.dwLocalPort as u16)` in both UDP branches. -/
def winUdpMatches (pid : Nat) (rows : List WinUdpRow) : List ProtocolPort :=
  rows.filterMap fun r =>
    if r.dwOwningPid = pid then some (ProtocolPort.Tcp (r.dwLocalPort % 65536)) else none

/-- list_ports_for_pid, Windows variant (port_query.rs:182-248). -/
def list_ports_for_pid_windows (q : PortQuery) (pid : Nat) (env : WinEnv) :
    Except ProcCtlError (List ProtocolPort) :=
  (if q.tcp_addresses && q.ipv4_addresses then
      (env.tcp4.mapError ProcCtlError.ProcessError).map (winTcpMatches pid)
    else .ok []).bind fun t4 =>
  (if q.tcp_addresses && q.ipv6_addresses then
      (env.tcp6.mapError ProcCtlError.ProcessError).map (winTcpMatches pid)
    else .ok []).bind fun t6 =>
  (if q.udp_addresses && q.ipv4_addresses then
      (env.udp4.mapError ProcCtlError.ProcessError).map (winUdpMatches pid)
    else .ok []).bind fun u4 =>
  (if q.udp_addresses && q.ipv6_addresses then
      (env.udp6.mapError ProcCtlError.ProcessError).map (winUdpMatches pid)
    else .ok []).bind fun u6 =>
  .ok (t4 ++ t6 ++ u4 ++ u6)

/-- Result of one call to GetExtendedTcpTable / GetExtendedUdpTable, with
`insufficientBuffer` carrying the required size the API reports. -/
inductive ApiResult where
  | insufficientBuffer (required : Nat)
  | otherFailure (code : Nat)
  | success
deriving DecidableEq, Repr

/-- The `for _ in 0..3` loop shared by load_tcp_table and load_udp_table
(port_query.rs:256-281, 294-319).  The external API is abstracted as a
function of the attempt number and the current buffer length; the buffer is
tracked by its length, which a resize sets to the reported required size. -/
def load_table_loop (api : Nat → Nat → ApiResult) (failMsg : Nat → String)
    (exhaustMsg : String) : Nat → Nat → Nat → Except ProcCtlError Nat
  | 0, _, _ => .error (.ProcessError exhaustMsg)
  | remaining + 1, attempt, bufLen =>
    match api attempt bufLen with
    | .insufficientBuffer required =>
        load_table_loop api failMsg exhaustMsg remaining (attempt + 1) required
    | .otherFailure code => .error (.ProcessError (failMsg code))
    | .success => .ok bufLen

/-- load_tcp_table (port_query.rs:251-286). -/
def load_tcp_table (api : Nat → Nat → ApiResult) : Except ProcCtlError Nat :=
  load_table_loop api (fun code => "Failed to get TCP table: " ++ toString code)
    "Failed to get TCP table" 3 0 0

/-- load_udp_table (port_query.rs:289-324). -/
def load_udp_table (api : Nat → Nat → ApiResult) : Except ProcCtlError Nat :=
  load_table_loop api (fun code => "Failed to get UDP table: " ++ toString code)
    "Failed to get UDP table" 3 0 0

/-- An extended-table API stub that reports a larger required size on every
call, so every attempt ends with an insufficient buffer. -/
def apiAlwaysInsufficient : Nat → Nat → ApiResult :=
  fun _ bufLen => .insufficientBuffer (bufLen + 100)

/-- An extended-table API stub that reports a required size of 100 on the
first call and succeeds on any later one. -/
def apiSucceedsSecond : Nat → Nat → ApiResult :=
  fun attempt _ => if attempt = 0 then .insufficientBuffer 100 else .success

/-! ## Linux table reader -/

/-- One row of a procfs TCP table: local port, socket state (procfs encodes
Listen as 10), kernel inode. -/
structure LinuxTcpRow where
  port : Nat
  state : Nat
  inode : Nat
deriving DecidableEq, Repr

/-- The procfs encoding of TcpState::Listen. -/
def TCP_STATE_LISTEN : Nat := 10

/-- One row of a procfs UDP table; the state field exists but is never read
by the reader. -/
structure LinuxUdpRow where
  port : Nat
  state : Nat
  inode : Nat
deriving DecidableEq, Repr

/-- The procfs data for the target process: the fd enumeration (each entry
`some inode` for a socket fd, `none` for any other or failed fd), and the
four socket tables, each fallible. -/
structure LinuxEnv where
  fds : Except String (List (Option Nat))
  tcpRows : Except String (List LinuxTcpRow)
  tcp6Rows : Except String (List LinuxTcpRow)
  udpRows : Except String (List LinuxUdpRow)
  udp6Rows : Except String (List LinuxUdpRow)

/-- list_ports_for_pid, Linux variant (port_query.rs:129-180).  Note the
IPv4 tables `proc.tcp()` / `proc.udp()` are loaded whenever the protocol is
requested; `ipv4_addresses` is never consulted, and `ipv6_addresses` only
adds the v6 tables. -/
def list_ports_for_pid_linux (q : PortQuery) (env : LinuxEnv) :
    Except ProcCtlError (List ProtocolPort) :=
  (env.fds.mapError ProcCtlError.ProcessError).bind fun fdList =>
  let socketNodes := fdList.filterMap id
  (if q.tcp_addresses then
      (env.tcpRows.mapError ProcCtlError.ProcessError).bind fun t =>
      (if q.ipv6_addresses then env.tcp6Rows.mapError ProcCtlError.ProcessError
        else .ok []).bind fun t6 =>
      .ok ((t ++ t6).filterMap fun e =>
        if e.state == TCP_STATE_LISTEN && socketNodes.contains e.inode then
          some (ProtocolPort.Tcp e.port)
        else none)
    else .ok []).bind fun tcpPorts =>
  (if q.udp_addresses then
      (env.udpRows.mapError ProcCtlError.ProcessError).bind fun u =>
      (if q.ipv6_addresses then env.udp6Rows.mapError ProcCtlError.ProcessError
        else .ok []).bind fun u6 =>
      .ok ((u ++ u6).filterMap fun e =>
        if socketNodes.contains e.inode then some (ProtocolPort.Udp e.port) else none)
    else .ok []).bind fun udpPorts =>
  .ok (tcpPorts ++ udpPorts)

/-! ## macOS lsof-output parsers

The parsers walk the raw output bytes with a cursor.  The embedding returns
`Option (List Nat)`: `none` models a panic (an out-of-bounds index or slice,
which the embedding checks exactly where the source indexes or slices) or
exhaustion of the fuel that bounds the cursor loop; `some ports` is the
source's return value. -/

/-- The body of `while index < len && output[index] != stop`: how many
leading bytes of the remaining buffer differ from `stop`. -/
def skipAux (stop : Nat) : List Nat → Nat
  | [] => 0
  | b :: bs => if b = stop then 0 else skipAux stop bs + 1

/-- The cursor position after `while index < len && output[index] != stop`
starting from `i`. -/
def skipTo (o : List Nat) (stop i : Nat) : Nat :=
  i + skipAux stop (o.drop i)

/-- The step `if index < len && output[index] == 10 { index += 1 }` that
skips a line terminator. -/
def nlSkip (o : List Nat) (i : Nat) : Nat :=
  if i < o.length ∧ o.getD i 0 = 10 then i + 1 else i

/-- Rust `String::from_utf8_lossy(bytes).parse::<uN>()` for an unsigned
bound: an optional leading `+`, then one or more ASCII digits, value within
the bound; anything else (including any non-ASCII byte, which the lossy
decoding cannot turn into a digit) fails. -/
def parseUInt (bytes : List Nat) (bound : Nat) : Option Nat :=
  let ds := if bytes.head? = some 43 then bytes.tail else bytes
  if ds ≠ [] ∧ (∀ b ∈ ds, 48 ≤ b ∧ b ≤ 57) ∧ ds.foldl (fun a b => a * 10 + (b - 48)) 0 ≤ bound
  then some (ds.foldl (fun a b => a * 10 + (b - 48)) 0)
  else none

/-- The find_ports_v4 state machine (port_query.rs:408-474).  The state
`none` is the outer `while` loop (expecting a `p` record tag); `some pid` is
the inner `loop` over the record's sub-lines.  Byte values: `p` = 112,
`n` = 110, `:` = 58, NUL = 0, NL = 10. -/
def scanV4 (o : List Nat) (findPid : Nat) :
    Nat → Option Nat → Nat → List Nat → Option (List Nat)
  | 0, _, _, _ => none
  | fuel + 1, st, index, out =>
    match st with
    | none =>
      if index < o.length then
        if o.getD index 0 = 112 then
          let i2 := skipTo o 0 (index + 1)
          if index + 1 ≤ i2 ∧ i2 ≤ o.length then
            match parseUInt ((o.drop (index + 1)).take (i2 - (index + 1))) 4294967295 with
            | none => some out
            | some pid => scanV4 o findPid fuel (some pid) (i2 + 2) out
          else none
        else some out
      else some out
    | some pid =>
      if pid = findPid ∧ index < o.length ∧ o.getD index 0 = 110 then
        let j := skipTo o 58 index
        let k := skipTo o 0 (j + 1)
        if o.length ≤ k then some out
        else
          if j + 1 ≤ k ∧ k ≤ o.length then
            let out2 := match parseUInt ((o.drop (j + 1)).take (k - (j + 1))) 65535 with
              | some port => out ++ [port]
              | none => out
            let m := nlSkip o (k + 1)
            if o.length ≤ m ∨ o.getD m 0 = 112 then scanV4 o findPid fuel none m out2
            else scanV4 o findPid fuel (some pid) m out2
          else none
      else
        let k := skipTo o 0 index
        let m := nlSkip o (k + 1)
        if o.length ≤ m ∨ o.getD m 0 = 112 then scanV4 o findPid fuel none m out
        else scanV4 o findPid fuel (some pid) m out

/-- find_ports_v4 (port_query.rs:408-474): run the state machine from the
start of the buffer with enough fuel for its strictly advancing cursor. -/
def find_ports_v4 (output : List Nat) (find_pid : Nat) : Option (List Nat) :=
  scanV4 output find_pid (output.length + 4) none 0 []

/-- The find_ports_v6 state machine (port_query.rs:476-544).  It differs
from v4 only inside the `n` sub-line: skip to `]` = 93, require the next
byte (when in bounds) to be `:`, and the port follows.  A failed `:` check
breaks back to the outer loop at the current cursor. -/
def scanV6 (o : List Nat) (findPid : Nat) :
    Nat → Option Nat → Nat → List Nat → Option (List Nat)
  | 0, _, _, _ => none
  | fuel + 1, st, index, out =>
    match st with
    | none =>
      if index < o.length then
        if o.getD index 0 = 112 then
          let i2 := skipTo o 0 (index + 1)
          if index + 1 ≤ i2 ∧ i2 ≤ o.length then
            match parseUInt ((o.drop (index + 1)).take (i2 - (index + 1))) 4294967295 with
            | none => some out
            | some pid => scanV6 o findPid fuel (some pid) (i2 + 2) out
          else none
        else some out
      else some out
    | some pid =>
      if pid = findPid ∧ index < o.length ∧ o.getD index 0 = 110 then
        let j := skipTo o 93 index
        if j + 1 < o.length ∧ o.getD (j + 1) 0 ≠ 58 then
          scanV6 o findPid fuel none (j + 1) out
        else
          let k := skipTo o 0 (j + 2)
          if o.length ≤ k then some out
          else
            if j + 2 ≤ k ∧ k ≤ o.length then
              let out2 := match parseUInt ((o.drop (j + 2)).take (k - (j + 2))) 65535 with
                | some port => out ++ [port]
                | none => out
              let m := nlSkip o (k + 1)
              if o.length ≤ m ∨ o.getD m 0 = 112 then scanV6 o findPid fuel none m out2
              else scanV6 o findPid fuel (some pid) m out2
            else none
      else
        let k := skipTo o 0 index
        let m := nlSkip o (k + 1)
        if o.length ≤ m ∨ o.getD m 0 = 112 then scanV6 o findPid fuel none m out
        else scanV6 o findPid fuel (some pid) m out

/-- find_ports_v6 (port_query.rs:476-544). -/
def find_ports_v6 (output : List Nat) (find_pid : Nat) : Option (List Nat) :=
  scanV6 output find_pid (output.length + 4) none 0 []

/-- The stdout bytes of each of the four lsof invocations the macOS reader
may spawn (port_query.rs:326-406), or the spawn failure's text. -/
structure MacEnv where
  tcp4Out : Except String (List Nat)
  udp4Out : Except String (List Nat)
  tcp6Out : Except String (List Nat)
  udp6Out : Except String (List Nat)

/-- list_ports_for_pid, macOS variant (port_query.rs:326-406): the four
blocks run in source order (v4 TCP, v4 UDP, v6 TCP, v6 UDP); the TCP
invocations pass `-sTCP:LISTEN` to lsof, so state filtering happens in the
external command, not here. -/
def list_ports_for_pid_macos (q : PortQuery) (pid : Nat) (env : MacEnv) :
    Except ProcCtlError (List ProtocolPort) :=
  (if q.ipv4_addresses && q.tcp_addresses then
      (env.tcp4Out.mapError ProcCtlError.ProcessError).map
        (fun o => ((find_ports_v4 o pid).getD []).map ProtocolPort.Tcp)
    else .ok []).bind fun a =>
  (if q.ipv4_addresses && q.udp_addresses then
      (env.udp4Out.mapError ProcCtlError.ProcessError).map
        (fun o => ((find_ports_v4 o pid).getD []).map ProtocolPort.Udp)
    else .ok []).bind fun b =>
  (if q.ipv6_addresses && q.tcp_addresses then
      (env.tcp6Out.mapError ProcCtlError.ProcessError).map
        (fun o => ((find_ports_v6 o pid).getD []).map ProtocolPort.Tcp)
    else .ok []).bind fun c =>
  (if q.ipv6_addresses && q.udp_addresses then
      (env.udp6Out.mapError ProcCtlError.ProcessError).map
        (fun o => ((find_ports_v6 o pid).getD []).map ProtocolPort.Udp)
    else .ok []).bind fun d =>
  .ok (a ++ b ++ c ++ d)

/-! ## execute and the process query -/

/-- The live OS state a single `list_ports_for_pid` call reads, for the one
platform the build targets. -/
inductive PlatformEnv where
  | linux (env : LinuxEnv)
  | windows (env : WinEnv)
  | macos (env : MacEnv)

/-- The cfg-selected list_ports_for_pid.  On Linux the environment is
already the procfs view of the resolved pid, so the pid argument is
consumed by the environment itself. -/
def list_ports_for_pid (q : PortQuery) (pid : Nat) : PlatformEnv →
    Except ProcCtlError (List ProtocolPort)
  | .linux env => list_ports_for_pid_linux q env
  | .windows env => list_ports_for_pid_windows q pid env
  | .macos env => list_ports_for_pid_macos q pid env

/-- PortQuery::execute (port_query.rs:79-92). -/
def PortQuery.execute (q : PortQuery) (env : PlatformEnv) :
    Except ProcCtlError (List ProtocolPort) := do
  let pid ← resolve_pid q.process_id
  let ports ← list_ports_for_pid q pid env
  match q.min_num_ports with
  | some num => if ports.length < num then .error (.TooFewPorts ports num) else .ok ports
  | none => .ok ports

/-- A process record copied out of the snapshot (src/proc_query.rs,
struct ProcInfo); paths are abstracted as strings. -/
structure ProcInfo where
  name : String
  cmd : List String
  exe : Option String
  pid : Nat
  parent : Option Nat
  env : List String
  cwd : Option String
deriving DecidableEq, Repr

/-- The process query configuration (src/proc_query.rs, struct ProcQuery). -/
structure ProcQuery where
  process_id : Option Nat
  name : Option String
  min_num_children : Option Nat
deriving DecidableEq, Repr

/-- ProcQuery::new. -/
def ProcQuery.new : ProcQuery :=
  { process_id := none, name := none, min_num_children := none }

/-- ProcQuery::process_id. -/
def ProcQuery.process_id_set (q : ProcQuery) (pid : Nat) : ProcQuery :=
  { q with process_id := some pid }

/-- ProcQuery::expect_min_num_children. -/
def ProcQuery.expect_min_num_children (q : ProcQuery) (num_children : Nat) : ProcQuery :=
  { q with min_num_children := some num_children }

/-- ProcQuery::children (proc_query.rs:118-137).  The refreshed snapshot is
passed in as the list of live process records. -/
def ProcQuery.children (q : ProcQuery) (sys : List ProcInfo) :
    Except ProcCtlError (List ProcInfo) := do
  let pid ← resolve_pid q.process_id
  let childs := sys.filter fun p => p.parent == some pid
  match q.min_num_children with
  | some num =>
      if childs.length < num then .error (.TooFewChildren childs.length num)
      else .ok childs
  | none => .ok childs

/-! ## Retry decorators

The asynchronous variants and their delays are embedded directly from the
source recursion.  Because live OS state can change between attempts, the
environment is a stream indexed by the attempt number; each result is
paired with the total delay slept before it was produced. -/

/-- PortQuery::execute_with_retry (port_query.rs:110-126), with the attempt
index made explicit. -/
def PortQuery.execute_with_retry (q : PortQuery) (envs : Nat → PlatformEnv)
    (delay : Nat) : Nat → Nat → Except ProcCtlError (List ProtocolPort) × Nat
  | count, attempt =>
    match q.execute (envs attempt) with
    | .ok ports => (.ok ports, 0)
    | .error e =>
      match count with
      | 0 => (.error e, 0)
      | count' + 1 =>
        let r := q.execute_with_retry envs delay count' (attempt + 1)
        (r.1, delay + r.2)

/-- ProcQuery::children_with_retry (proc_query.rs:155-171). -/
def ProcQuery.children_with_retry (q : ProcQuery) (syss : Nat → List ProcInfo)
    (delay : Nat) : Nat → Nat → Except ProcCtlError (List ProcInfo) × Nat
  | count, attempt =>
    match q.children (syss attempt) with
    | .ok infos => (.ok infos, 0)
    | .error e =>
      match count with
      | 0 => (.error e, 0)
      | count' + 1 =>
        let r := q.children_with_retry syss delay count' (attempt + 1)
        (r.1, delay + r.2)

/-- Modelled from the spec: the external `retry` crate's bounded fixed-delay
combinator consumed by `execute_with_retry_sync` / `children_with_retry_sync`
(spec section 4.4): it invokes the single-shot operation, returns immediately
on success, and on failure waits the next delay of the iterator and retries,
returning the last failure once the delays are exhausted. -/
def retryCombinator {E A : Type} (op : Nat → Except E A) :
    List Nat → Nat → Except E A × Nat
  | delays, attempt =>
    match op attempt with
    | .ok a => (.ok a, 0)
    | .error e =>
      match delays with
      | [] => (.error e, 0)
      | d :: rest =>
        let r := retryCombinator op rest (attempt + 1)
        (r.1, d + r.2)

/-- PortQuery::execute_with_retry_sync (port_query.rs:96-105):
`retry::delay::Fixed::from(delay).take(count)` is the list of `count`
copies of the fixed delay. -/
def PortQuery.execute_with_retry_sync (q : PortQuery) (envs : Nat → PlatformEnv)
    (delay count : Nat) : Except ProcCtlError (List ProtocolPort) × Nat :=
  retryCombinator (fun i => q.execute (envs i)) (List.replicate count delay) 0

/-- ProcQuery::children_with_retry_sync (proc_query.rs:141-150). -/
def ProcQuery.children_with_retry_sync (q : ProcQuery) (syss : Nat → List ProcInfo)
    (delay count : Nat) : Except ProcCtlError (List ProcInfo) × Nat :=
  retryCombinator (fun i => q.children (syss i)) (List.replicate count delay) 0

/-- The provenance every port emitted by the Windows reader has: a row
whose owning-pid field equals the target pid, drawn from one of the four
tables enabled by the protocol and address-family filters.  Every emitted
tag is `Tcp`, for UDP-table rows as well. -/
def winRowSources (q : PortQuery) (pid : Nat) (env : WinEnv) (x : ProtocolPort) : Prop :=
  (q.tcp_addresses = true ∧ q.ipv4_addresses = true ∧ ∃ rows, env.tcp4 = .ok rows ∧
    ∃ r ∈ rows, r.dwOwningPid = pid ∧ x = .Tcp (r.dwLocalPort % 65536)) ∨
  (q.tcp_addresses = true ∧ q.ipv6_addresses = true ∧ ∃ rows, env.tcp6 = .ok rows ∧
    ∃ r ∈ rows, r.dwOwningPid = pid ∧ x = .Tcp (r.dwLocalPort % 65536)) ∨
  (q.udp_addresses = true ∧ q.ipv4_addresses = true ∧ ∃ rows, env.udp4 = .ok rows ∧
    ∃ r ∈ rows, r.dwOwningPid = pid ∧ x = .Tcp (r.dwLocalPort % 65536)) ∨
  (q.udp_addresses = true ∧ q.ipv6_addresses = true ∧ ∃ rows, env.udp6 = .ok rows ∧
    ∃ r ∈ rows, r.dwOwningPid = pid ∧ x = .Tcp (r.dwLocalPort % 65536))

/-- The provenance every port emitted by the Linux reader has: a table row
whose inode is one of the target process's socket-fd inodes, from a table
enabled by the protocol filter; TCP rows are additionally in the listening
state.  The IPv4 tables contribute unconditionally — the address-family
filter only controls whether the v6 tables are added. -/
def linuxRowSources (q : PortQuery) (env : LinuxEnv) (x : ProtocolPort) : Prop :=
  ∃ fdList, env.fds = .ok fdList ∧
    ((q.tcp_addresses = true ∧ ∃ e : LinuxTcpRow,
        ((∃ rows, env.tcpRows = .ok rows ∧ e ∈ rows) ∨
         (q.ipv6_addresses = true ∧ ∃ rows, env.tcp6Rows = .ok rows ∧ e ∈ rows)) ∧
        e.state = TCP_STATE_LISTEN ∧ (fdList.filterMap id).contains e.inode = true ∧
        x = .Tcp e.port) ∨
     (q.udp_addresses = true ∧ ∃ e : LinuxUdpRow,
        ((∃ rows, env.udpRows = .ok rows ∧ e ∈ rows) ∨
         (q.ipv6_addresses = true ∧ ∃ rows, env.udp6Rows = .ok rows ∧ e ∈ rows)) ∧
        (fdList.filterMap id).contains e.inode = true ∧ x = .Udp e.port))

/-- The exact macOS result when the four lsof invocations' outputs are
`o1`..`o4`: each filter-enabled block contributes the parses of its own
invocation for the target pid, with the tag of its protocol. -/
def macosBlocks (q : PortQuery) (pid : Nat) (o1 o2 o3 o4 : List Nat) : List ProtocolPort :=
  (if q.ipv4_addresses && q.tcp_addresses then
    ((find_ports_v4 o1 pid).getD []).map ProtocolPort.Tcp else []) ++
  (if q.ipv4_addresses && q.udp_addresses then
    ((find_ports_v4 o2 pid).getD []).map ProtocolPort.Udp else []) ++
  (if q.ipv6_addresses && q.tcp_addresses then
    ((find_ports_v6 o3 pid).getD []).map ProtocolPort.Tcp else []) ++
  (if q.ipv6_addresses && q.udp_addresses then
    ((find_ports_v6 o4 pid).getD []).map ProtocolPort.Udp else [])

/-! ## Cursor lemmas -/

theorem skipAux_le (stop : Nat) : ∀ l : List Nat, skipAux stop l ≤ l.length
  | [] => Nat.le_refl 0
  | b :: bs => by
    simp only [skipAux, List.length_cons]
    split
    · omega
    · have := skipAux_le stop bs
      omega

theorem skipTo_ge (o : List Nat) (stop i : Nat) : i ≤ skipTo o stop i :=
  Nat.le_add_right i _

theorem skipTo_le_max (o : List Nat) (stop i : Nat) :
    skipTo o stop i ≤ max i o.length := by
  have h := skipAux_le stop (o.drop i)
  simp only [List.length_drop] at h
  simp only [skipTo]
  omega

theorem skipTo_le (o : List Nat) (stop i : Nat) (h : i ≤ o.length) :
    skipTo o stop i ≤ o.length := by
  have := skipTo_le_max o stop i
  omega

theorem skipTo_succ_ge (o : List Nat) (stop i : Nat) (h : i < o.length)
    (hne : o.getD i 0 ≠ stop) : i + 1 ≤ skipTo o stop i := by
  have hdrop : o.drop i = o.getD i 0 :: o.drop (i + 1) := by
    rw [List.getD_eq_getElem o 0 h]
    exact List.drop_eq_getElem_cons h
  simp only [skipTo, hdrop, skipAux, if_neg hne]
  omega

theorem nlSkip_ge (o : List Nat) (i : Nat) : i ≤ nlSkip o i := by
  simp only [nlSkip]
  split <;> omega

theorem nlSkip_le_max (o : List Nat) (i : Nat) : nlSkip o i ≤ max i o.length := by
  simp only [nlSkip]
  split <;> omega

/-! ## Parser totality -/

theorem scanV4_isSome (o : List Nat) (p : Nat) :
    ∀ fuel st index out, o.length + 4 ≤ fuel + index →
      (st = none → index ≤ o.length + 3) →
      (st.isSome → index ≤ o.length + 2) →
      (scanV4 o p fuel st index out).isSome := by
  intro fuel
  induction fuel with
  | zero =>
    intro st index out h1 h2 h3
    cases st with
    | none => have := h2 rfl; exact absurd h1 (by omega)
    | some pid => have := h3 rfl; exact absurd h1 (by omega)
  | succ fuel ih =>
    intro st index out h1 h2 h3
    cases st with
    | none =>
      simp only [scanV4]
      by_cases hidx : index < o.length
      · rw [if_pos hidx]
        by_cases hp : o.getD index 0 = 112
        · rw [if_pos hp]
          have hge := skipTo_ge o 0 (index + 1)
          have hle := skipTo_le o 0 (index + 1) (by omega)
          rw [if_pos ⟨hge, hle⟩]
          cases hps : parseUInt ((o.drop (index + 1)).take (skipTo o 0 (index + 1) -
              (index + 1))) 4294967295 with
          | none => rfl
          | some pid =>
            exact ih (some pid) (skipTo o 0 (index + 1) + 2) out (by omega)
              (fun h => by cases h) (fun _ => by omega)
        · rw [if_neg hp]; rfl
      · rw [if_neg hidx]; rfl
    | some pid =>
      simp only [scanV4]
      by_cases hc : pid = p ∧ index < o.length ∧ o.getD index 0 = 110
      · rw [if_pos hc]
        obtain ⟨hpm, hidx, hn⟩ := hc
        have hj1 : index + 1 ≤ skipTo o 58 index :=
          skipTo_succ_ge o 58 index hidx (by rw [hn]; decide)
        have hj2 : skipTo o 58 index ≤ o.length := skipTo_le o 58 index (by omega)
        have hk1 := skipTo_ge o 0 (skipTo o 58 index + 1)
        have hk2 := skipTo_le_max o 0 (skipTo o 58 index + 1)
        by_cases hkl : o.length ≤ skipTo o 0 (skipTo o 58 index + 1)
        · rw [if_pos hkl]; rfl
        · rw [if_neg hkl, if_pos ⟨hk1, by omega⟩]
          have hm1 := nlSkip_ge o (skipTo o 0 (skipTo o 58 index + 1) + 1)
          have hm2 := nlSkip_le_max o (skipTo o 0 (skipTo o 58 index + 1) + 1)
          by_cases hbr : o.length ≤ nlSkip o (skipTo o 0 (skipTo o 58 index + 1) + 1) ∨
              o.getD (nlSkip o (skipTo o 0 (skipTo o 58 index + 1) + 1)) 0 = 112
          · rw [if_pos hbr]
            exact ih none _ _ (by omega) (fun _ => by omega) (fun h => by cases h)
          · rw [if_neg hbr]
            push_neg at hbr
            exact ih (some pid) _ _ (by omega) (fun h => by cases h)
              (fun _ => by omega)
      · rw [if_neg hc]
        have hst : index ≤ o.length + 2 := h3 rfl
        have hk1 := skipTo_ge o 0 index
        have hk2 := skipTo_le_max o 0 index
        have hm1 := nlSkip_ge o (skipTo o 0 index + 1)
        have hm2 := nlSkip_le_max o (skipTo o 0 index + 1)
        by_cases hbr : o.length ≤ nlSkip o (skipTo o 0 index + 1) ∨
            o.getD (nlSkip o (skipTo o 0 index + 1)) 0 = 112
        · rw [if_pos hbr]
          exact ih none _ _ (by omega) (fun _ => by omega) (fun h => by cases h)
        · rw [if_neg hbr]
          push_neg at hbr
          exact ih (some pid) _ _ (by omega) (fun h => by cases h) (fun _ => by omega)

theorem scanV6_isSome (o : List Nat) (p : Nat) :
    ∀ fuel st index out, o.length + 4 ≤ fuel + index →
      (st = none → index ≤ o.length + 3) →
      (st.isSome → index ≤ o.length + 2) →
      (scanV6 o p fuel st index out).isSome := by
  intro fuel
  induction fuel with
  | zero =>
    intro st index out h1 h2 h3
    cases st with
    | none => have := h2 rfl; exact absurd h1 (by omega)
    | some pid => have := h3 rfl; exact absurd h1 (by omega)
  | succ fuel ih =>
    intro st index out h1 h2 h3
    cases st with
    | none =>
      simp only [scanV6]
      by_cases hidx : index < o.length
      · rw [if_pos hidx]
        by_cases hp : o.getD index 0 = 112
        · rw [if_pos hp]
          have hge := skipTo_ge o 0 (index + 1)
          have hle := skipTo_le o 0 (index + 1) (by omega)
          rw [if_pos ⟨hge, hle⟩]
          cases hps : parseUInt ((o.drop (index + 1)).take (skipTo o 0 (index + 1) -
              (index + 1))) 4294967295 with
          | none => rfl
          | some pid =>
            exact ih (some pid) (skipTo o 0 (index + 1) + 2) out (by omega)
              (fun h => by cases h) (fun _ => by omega)
        · rw [if_neg hp]; rfl
      · rw [if_neg hidx]; rfl
    | some pid =>
      simp only [scanV6]
      by_cases hc : pid = p ∧ index < o.length ∧ o.getD index 0 = 110
      · rw [if_pos hc]
        obtain ⟨hpm, hidx, hn⟩ := hc
        have hj1 : index + 1 ≤ skipTo o 93 index :=
          skipTo_succ_ge o 93 index hidx (by rw [hn]; decide)
        have hj2 : skipTo o 93 index ≤ o.length := skipTo_le o 93 index (by omega)
        by_cases hcol : skipTo o 93 index + 1 < o.length ∧
            o.getD (skipTo o 93 index + 1) 0 ≠ 58
        · rw [if_pos hcol]
          exact ih none _ _ (by omega) (fun _ => by omega) (fun h => by cases h)
        · rw [if_neg hcol]
          have hk1 := skipTo_ge o 0 (skipTo o 93 index + 2)
          have hk2 := skipTo_le_max o 0 (skipTo o 93 index + 2)
          by_cases hkl : o.length ≤ skipTo o 0 (skipTo o 93 index + 2)
          · rw [if_pos hkl]; rfl
          · rw [if_neg hkl, if_pos ⟨hk1, by omega⟩]
            have hm1 := nlSkip_ge o (skipTo o 0 (skipTo o 93 index + 2) + 1)
            have hm2 := nlSkip_le_max o (skipTo o 0 (skipTo o 93 index + 2) + 1)
            by_cases hbr : o.length ≤ nlSkip o (skipTo o 0 (skipTo o 93 index + 2) + 1) ∨
                o.getD (nlSkip o (skipTo o 0 (skipTo o 93 index + 2) + 1)) 0 = 112
            · rw [if_pos hbr]
              exact ih none _ _ (by omega) (fun _ => by omega) (fun h => by cases h)
            · rw [if_neg hbr]
              push_neg at hbr
              exact ih (some pid) _ _ (by omega) (fun h => by cases h)
                (fun _ => by omega)
      · rw [if_neg hc]
        have hst : index ≤ o.length + 2 := h3 rfl
        have hk1 := skipTo_ge o 0 index
        have hk2 := skipTo_le_max o 0 index
        have hm1 := nlSkip_ge o (skipTo o 0 index + 1)
        have hm2 := nlSkip_le_max o (skipTo o 0 index + 1)
        by_cases hbr : o.length ≤ nlSkip o (skipTo o 0 index + 1) ∨
            o.getD (nlSkip o (skipTo o 0 index + 1)) 0 = 112
        · rw [if_pos hbr]
          exact ih none _ _ (by omega) (fun _ => by omega) (fun h => by cases h)
        · rw [if_neg hbr]
          push_neg at hbr
          exact ih (some pid) _ _ (by omega) (fun h => by cases h) (fun _ => by omega)

/-! ## Step-unfolding and inversion lemmas -/

theorem skipAux_append (stop : Nat) (ys : List Nat) :
    ∀ xs : List Nat, (∀ b ∈ xs, b ≠ stop) →
      skipAux stop (xs ++ stop :: ys) = xs.length
  | [], _ => by simp [skipAux]
  | x :: xs, h => by
    show skipAux stop (x :: (xs ++ stop :: ys)) = xs.length + 1
    simp only [skipAux]
    rw [if_neg (h x (by simp))]
    rw [skipAux_append stop ys xs (fun b hb => h b (by simp [hb]))]

theorem scanV4_outer_step (o : List Nat) (p fuel index : Nat) (out : List Nat) :
    scanV4 o p (fuel + 1) none index out =
      (if index < o.length then
        if o.getD index 0 = 112 then
          if index + 1 ≤ skipTo o 0 (index + 1) ∧ skipTo o 0 (index + 1) ≤ o.length then
            match parseUInt ((o.drop (index + 1)).take (skipTo o 0 (index + 1) -
                (index + 1))) 4294967295 with
            | none => some out
            | some pid => scanV4 o p fuel (some pid) (skipTo o 0 (index + 1) + 2) out
          else none
        else some out
      else some out) := rfl

theorem scanV6_outer_step (o : List Nat) (p fuel index : Nat) (out : List Nat) :
    scanV6 o p (fuel + 1) none index out =
      (if index < o.length then
        if o.getD index 0 = 112 then
          if index + 1 ≤ skipTo o 0 (index + 1) ∧ skipTo o 0 (index + 1) ≤ o.length then
            match parseUInt ((o.drop (index + 1)).take (skipTo o 0 (index + 1) -
                (index + 1))) 4294967295 with
            | none => some out
            | some pid => scanV6 o p fuel (some pid) (skipTo o 0 (index + 1) + 2) out
          else none
        else some out
      else some out) := rfl

theorem find_ports_v4_bad_pid (pidBytes rest : List Nat) (p : Nat)
    (hnz : ∀ b ∈ pidBytes, b ≠ 0)
    (hparse : parseUInt pidBytes 4294967295 = none) :
    find_ports_v4 (112 :: (pidBytes ++ 0 :: 10 :: rest)) p = some [] := by
  set o := 112 :: (pidBytes ++ 0 :: 10 :: rest) with ho
  show scanV4 o p (o.length + 4) none 0 [] = some []
  rw [show o.length + 4 = (o.length + 3) + 1 from rfl, scanV4_outer_step]
  have h0 : (0 : Nat) < o.length := by simp [ho]
  rw [if_pos h0]
  have hgd : o.getD 0 0 = 112 := by simp [ho]
  rw [if_pos hgd]
  have hdrop : o.drop 1 = pidBytes ++ 0 :: 10 :: rest := by simp [ho]
  have hskip : skipTo o 0 1 = 1 + pidBytes.length := by
    rw [skipTo, hdrop, skipAux_append 0 (10 :: rest) pidBytes hnz]
  rw [hskip]
  have hlen : o.length = pidBytes.length + rest.length + 3 := by simp [ho]; omega
  rw [if_pos (by omega : 1 ≤ 1 + pidBytes.length ∧ 1 + pidBytes.length ≤ o.length)]
  have hslice : (o.drop 1).take (1 + pidBytes.length - 1) = pidBytes := by
    rw [hdrop, show 1 + pidBytes.length - 1 = pidBytes.length from by omega]
    exact List.take_left _ _
  rw [hslice, hparse]

theorem find_ports_v6_bad_pid (pidBytes rest : List Nat) (p : Nat)
    (hnz : ∀ b ∈ pidBytes, b ≠ 0)
    (hparse : parseUInt pidBytes 4294967295 = none) :
    find_ports_v6 (112 :: (pidBytes ++ 0 :: 10 :: rest)) p = some [] := by
  set o := 112 :: (pidBytes ++ 0 :: 10 :: rest) with ho
  show scanV6 o p (o.length + 4) none 0 [] = some []
  rw [show o.length + 4 = (o.length + 3) + 1 from rfl, scanV6_outer_step]
  have h0 : (0 : Nat) < o.length := by simp [ho]
  rw [if_pos h0]
  have hgd : o.getD 0 0 = 112 := by simp [ho]
  rw [if_pos hgd]
  have hdrop : o.drop 1 = pidBytes ++ 0 :: 10 :: rest := by simp [ho]
  have hskip : skipTo o 0 1 = 1 + pidBytes.length := by
    rw [skipTo, hdrop, skipAux_append 0 (10 :: rest) pidBytes hnz]
  rw [hskip]
  have hlen : o.length = pidBytes.length + rest.length + 3 := by simp [ho]; omega
  rw [if_pos (by omega : 1 ≤ 1 + pidBytes.length ∧ 1 + pidBytes.length ≤ o.length)]
  have hslice : (o.drop 1).take (1 + pidBytes.length - 1) = pidBytes := by
    rw [hdrop, show 1 + pidBytes.length - 1 = pidBytes.length from by omega]
    exact List.take_left _ _
  rw [hslice, hparse]

theorem load_table_loop_succ (api : Nat → Nat → ApiResult) (f : Nat → String)
    (m : String) (remaining attempt bufLen : Nat) :
    load_table_loop api f m (remaining + 1) attempt bufLen =
      match api attempt bufLen with
      | .insufficientBuffer required =>
          load_table_loop api f m remaining (attempt + 1) required
      | .otherFailure code => .error (.ProcessError (f code))
      | .success => .ok bufLen := rfl

theorem load_table_loop_zero (api : Nat → Nat → ApiResult) (f : Nat → String)
    (m : String) (attempt bufLen : Nat) :
    load_table_loop api f m 0 attempt bufLen = .error (.ProcessError m) := rfl

theorem except_bind_ok {ε α β : Type} (a : Except ε α) (f : α → Except ε β) (b : β)
    (h : a.bind f = .ok b) : ∃ x, a = .ok x ∧ f x = .ok b := by
  cases a with
  | ok x => exact ⟨x, rfl, h⟩
  | error e => exact absurd h (by simp [Except.bind])

theorem loadBlock_inv {α : Type} (cond : Bool) (e : Except String (List α))
    (g : List α → List ProtocolPort) (lp : List ProtocolPort)
    (h : (if cond then (e.mapError ProcCtlError.ProcessError).map g else .ok []) = .ok lp) :
    (cond = false ∧ lp = []) ∨ (cond = true ∧ ∃ rows, e = .ok rows ∧ lp = g rows) := by
  cases cond with
  | false =>
    refine .inl ⟨rfl, ?_⟩
    simpa using h.symm
  | true =>
    refine .inr ⟨rfl, ?_⟩
    cases e with
    | ok rows =>
      refine ⟨rows, rfl, ?_⟩
      simpa [Except.mapError, Except.map] using h.symm
    | error s => exact absurd h (by simp [Except.mapError, Except.map])

theorem mem_winTcpMatches {pid : Nat} {rows : List WinTcpRow} {x : ProtocolPort}
    (h : x ∈ winTcpMatches pid rows) :
    ∃ r ∈ rows, r.dwOwningPid = pid ∧ x = .Tcp (r.dwLocalPort % 65536) := by
  simp only [winTcpMatches, List.mem_filterMap] at h
  obtain ⟨r, hr, hf⟩ := h
  by_cases hp : r.dwOwningPid = pid
  · rw [if_pos hp] at hf
    exact ⟨r, hr, hp, (Option.some_inj.mp hf).symm⟩
  · rw [if_neg hp] at hf
    cases hf

theorem mem_winUdpMatches {pid : Nat} {rows : List WinUdpRow} {x : ProtocolPort}
    (h : x ∈ winUdpMatches pid rows) :
    ∃ r ∈ rows, r.dwOwningPid = pid ∧ x = .Tcp (r.dwLocalPort % 65536) := by
  simp only [winUdpMatches, List.mem_filterMap] at h
  obtain ⟨r, hr, hf⟩ := h
  by_cases hp : r.dwOwningPid = pid
  · rw [if_pos hp] at hf
    exact ⟨r, hr, hp, (Option.some_inj.mp hf).symm⟩
  · rw [if_neg hp] at hf
    cases hf

theorem mapError_ok {ε ε' α : Type} (f : ε → ε') (a : Except ε α) (b : α)
    (h : a.mapError f = .ok b) : a = .ok b := by
  cases a with
  | ok x => simpa [Except.mapError] using h
  | error e => exact absurd h (by simp [Except.mapError])

theorem list_ports_windows_sources (q : PortQuery) (pid : Nat) (env : WinEnv)
    (l : List ProtocolPort) (h : list_ports_for_pid_windows q pid env = .ok l) :
    ∀ x ∈ l, winRowSources q pid env x := by
  unfold list_ports_for_pid_windows at h
  obtain ⟨t4, h4, h⟩ := except_bind_ok _ _ _ h
  obtain ⟨t6, h6, h⟩ := except_bind_ok _ _ _ h
  obtain ⟨u4, hu4, h⟩ := except_bind_ok _ _ _ h
  obtain ⟨u6, hu6, h⟩ := except_bind_ok _ _ _ h
  obtain rfl : t4 ++ t6 ++ u4 ++ u6 = l := Except.ok.inj h
  intro x hx
  simp only [List.mem_append] at hx
  rcases hx with ((hx | hx) | hx) | hx
  · rcases loadBlock_inv _ _ _ _ h4 with ⟨_, rfl⟩ | ⟨hcond, rows, hrows, rfl⟩
    · cases hx
    · obtain ⟨hc1, hc2⟩ : q.tcp_addresses = true ∧ q.ipv4_addresses = true := by
        simpa using hcond
      obtain ⟨r, hr, hown, hxeq⟩ := mem_winTcpMatches hx
      exact Or.inl ⟨hc1, hc2, rows, hrows, r, hr, hown, hxeq⟩
  · rcases loadBlock_inv _ _ _ _ h6 with ⟨_, rfl⟩ | ⟨hcond, rows, hrows, rfl⟩
    · cases hx
    · obtain ⟨hc1, hc2⟩ : q.tcp_addresses = true ∧ q.ipv6_addresses = true := by
        simpa using hcond
      obtain ⟨r, hr, hown, hxeq⟩ := mem_winTcpMatches hx
      exact Or.inr (Or.inl ⟨hc1, hc2, rows, hrows, r, hr, hown, hxeq⟩)
  · rcases loadBlock_inv _ _ _ _ hu4 with ⟨_, rfl⟩ | ⟨hcond, rows, hrows, rfl⟩
    · cases hx
    · obtain ⟨hc1, hc2⟩ : q.udp_addresses = true ∧ q.ipv4_addresses = true := by
        simpa using hcond
      obtain ⟨r, hr, hown, hxeq⟩ := mem_winUdpMatches hx
      exact Or.inr (Or.inr (Or.inl ⟨hc1, hc2, rows, hrows, r, hr, hown, hxeq⟩))
  · rcases loadBlock_inv _ _ _ _ hu6 with ⟨_, rfl⟩ | ⟨hcond, rows, hrows, rfl⟩
    · cases hx
    · obtain ⟨hc1, hc2⟩ : q.udp_addresses = true ∧ q.ipv6_addresses = true := by
        simpa using hcond
      obtain ⟨r, hr, hown, hxeq⟩ := mem_winUdpMatches hx
      exact Or.inr (Or.inr (Or.inr ⟨hc1, hc2, rows, hrows, r, hr, hown, hxeq⟩))

theorem list_ports_linux_sources (q : PortQuery) (env : LinuxEnv)
    (l : List ProtocolPort) (h : list_ports_for_pid_linux q env = .ok l) :
    ∀ x ∈ l, linuxRowSources q env x := by
  unfold list_ports_for_pid_linux at h
  obtain ⟨fdList, hfd, h⟩ := except_bind_ok _ _ _ h
  obtain ⟨tcpPorts, htcp, h⟩ := except_bind_ok _ _ _ h
  obtain ⟨udpPorts, hudp, h⟩ := except_bind_ok _ _ _ h
  obtain rfl : tcpPorts ++ udpPorts = l := Except.ok.inj h
  intro x hx
  refine ⟨fdList, mapError_ok _ _ _ hfd, ?_⟩
  rcases List.mem_append.mp hx with hx | hx
  · left
    split at htcp
    next hqt =>
      obtain ⟨t, ht, htcp⟩ := except_bind_ok _ _ _ htcp
      obtain ⟨t6, ht6, htcp⟩ := except_bind_ok _ _ _ htcp
      obtain rfl := Except.ok.inj htcp
      refine ⟨hqt, ?_⟩
      simp only [List.mem_filterMap] at hx
      obtain ⟨e, he, hfe⟩ := hx
      by_cases hcond : (e.state == TCP_STATE_LISTEN &&
          (fdList.filterMap id).contains e.inode) = true
      · rw [if_pos hcond] at hfe
        obtain ⟨hstate, hcontains⟩ : e.state = TCP_STATE_LISTEN ∧
            (fdList.filterMap id).contains e.inode = true := by simpa using hcond
        refine ⟨e, ?_, hstate, hcontains, (Option.some_inj.mp hfe).symm⟩
        rcases List.mem_append.mp he with he | he
        · exact Or.inl ⟨t, mapError_ok _ _ _ ht, he⟩
        · split at ht6
          next hq6 => exact Or.inr ⟨hq6, t6, mapError_ok _ _ _ ht6, he⟩
          next hq6 =>
            obtain rfl := Except.ok.inj ht6
            cases he
      · rw [if_neg hcond] at hfe
        cases hfe
    next hqt =>
      obtain rfl := Except.ok.inj htcp
      cases hx
  · right
    split at hudp
    next hqu =>
      obtain ⟨u, hu, hudp⟩ := except_bind_ok _ _ _ hudp
      obtain ⟨u6, hu6, hudp⟩ := except_bind_ok _ _ _ hudp
      obtain rfl := Except.ok.inj hudp
      refine ⟨hqu, ?_⟩
      simp only [List.mem_filterMap] at hx
      obtain ⟨e, he, hfe⟩ := hx
      by_cases hcond : ((fdList.filterMap id).contains e.inode) = true
      · rw [if_pos hcond] at hfe
        refine ⟨e, ?_, hcond, (Option.some_inj.mp hfe).symm⟩
        rcases List.mem_append.mp he with he | he
        · exact Or.inl ⟨u, mapError_ok _ _ _ hu, he⟩
        · split at hu6
          next hq6 => exact Or.inr ⟨hq6, u6, mapError_ok _ _ _ hu6, he⟩
          next hq6 =>
            obtain rfl := Except.ok.inj hu6
            cases he
      · rw [if_neg hcond] at hfe
        cases hfe
    next hqu =>
      obtain rfl := Except.ok.inj hudp
      cases hx

theorem list_ports_macos_blocks (q : PortQuery) (pid : Nat) (env : MacEnv)
    (o1 o2 o3 o4 : List Nat) (h1 : env.tcp4Out = .ok o1) (h2 : env.udp4Out = .ok o2)
    (h3 : env.tcp6Out = .ok o3) (h4 : env.udp6Out = .ok o4) :
    list_ports_for_pid_macos q pid env = .ok (macosBlocks q pid o1 o2 o3 o4) := by
  unfold list_ports_for_pid_macos macosBlocks
  cases hA : (q.ipv4_addresses && q.tcp_addresses) <;>
  cases hB : (q.ipv4_addresses && q.udp_addresses) <;>
  cases hC : (q.ipv6_addresses && q.tcp_addresses) <;>
  cases hD : (q.ipv6_addresses && q.udp_addresses) <;>
    simp [hA, hB, hC, hD, h1, h2, h3, h4, Bind.bind, Except.bind, Except.mapError,
      Except.map]

/-! ## Claims -/

/-- C6: for every configuration with no pid source set, `execute()` fails
with `ConfigurationError`, regardless of the address-family, protocol and
minimum-port filters and of the platform state it would read; the embedding
is total, so no panic is possible. -/
theorem execute_no_pid_configuration_error (q : PortQuery) (env : PlatformEnv)
    (h : q.process_id = none) :
    q.execute env = .error (.ConfigurationError "unable to resolve a pid") := by
  simp [PortQuery.execute, resolve_pid, h, Bind.bind, Except.bind]

/-- Witness for C6 at a concrete filter combination. -/
theorem execute_no_pid_configuration_error_witness :
    (((PortQuery.new.tcp_only).ip_v6_only).expect_min_num_ports 5).execute
        (.windows ⟨.ok [], .ok [], .ok [], .ok []⟩) =
      .error (.ConfigurationError "unable to resolve a pid") :=
  execute_no_pid_configuration_error _ _ rfl

/-- C4: with `expect_min_num_ports(n)` configured, when the platform reader
matches `ports`, `execute()` fails with `TooFewPorts ports n` exactly when
fewer than `n` ports were matched, and returns the full matched list
otherwise. -/
theorem execute_min_num_ports_postcondition (q : PortQuery) (env : PlatformEnv)
    (n pid : Nat) (ports : List ProtocolPort)
    (hmin : q.min_num_ports = some n)
    (hpid : resolve_pid q.process_id = .ok pid)
    (hports : list_ports_for_pid q pid env = .ok ports) :
    (ports.length < n → q.execute env = .error (.TooFewPorts ports n)) ∧
    (n ≤ ports.length → q.execute env = .ok ports) := by
  constructor <;> intro hlen <;>
    simp [PortQuery.execute, hpid, hports, hmin, Bind.bind, Except.bind, hlen]

/-- Witness for C4: an empty match against an expectation of one port. -/
theorem execute_min_num_ports_postcondition_witness :
    ((PortQuery.new.process_id_set 7).expect_min_num_ports 1).execute
        (.windows ⟨.ok [], .ok [], .ok [], .ok []⟩) =
      .error (.TooFewPorts [] 1) :=
  (execute_min_num_ports_postcondition ((PortQuery.new.process_id_set 7).expect_min_num_ports 1)
    (.windows ⟨.ok [], .ok [], .ok [], .ok []⟩) 1 7 [] rfl rfl rfl).1 (by decide)

/-- C1 (code bug): on Windows, a UDP table row owned by the target pid is
emitted as `ProtocolPort.Tcp`, not `Udp` — the source pushes
`ProtocolPort::Tcp(row.dwLocalPort as u16)` in both UDP branches
(port_query.rs:227 and port_query.rs:241). -/
theorem windows_udp_row_emitted_as_tcp :
    (PortQuery.new.process_id_set 7).execute
        (.windows ⟨.ok [], .ok [], .ok [⟨80, 7⟩], .ok []⟩) = .ok [.Tcp 80] ∧
    ProtocolPort.Tcp 80 ≠ ProtocolPort.Udp 80 :=
  ⟨rfl, by decide⟩

/-- C2 (code bug): on Windows, a TCP table row owned by the target pid is
emitted even though its `dwState` (5, ESTABLISHED) is not
`MIB_TCP_STATE_LISTEN` — the row walk never inspects the state field
(port_query.rs:194-199, 208-213). -/
theorem windows_tcp_row_emitted_regardless_of_state :
    (PortQuery.new.process_id_set 7).execute
        (.windows ⟨.ok [⟨5, 80, 7⟩], .ok [], .ok [], .ok []⟩) = .ok [.Tcp 80] ∧
    (5 : Nat) ≠ MIB_TCP_STATE_LISTEN :=
  ⟨rfl, by decide⟩

/-- C7: the Windows table loaders call the extended-table API with a
growable buffer, resize to the reported size and retry on an
insufficient-buffer failure, give up with a `ProcessError` once the budget
of 3 attempts is exhausted, return any other failure as a `ProcessError`
immediately, and return the buffer on success. -/
theorem load_table_retry_contract (api : Nat → Nat → ApiResult) (r0 r1 r2 c : Nat) :
    (api 0 0 = .insufficientBuffer r0 → api 1 r0 = .insufficientBuffer r1 →
      api 2 r1 = .insufficientBuffer r2 →
      load_tcp_table api = .error (.ProcessError "Failed to get TCP table") ∧
      load_udp_table api = .error (.ProcessError "Failed to get UDP table")) ∧
    (api 0 0 = .otherFailure c →
      load_tcp_table api = .error (.ProcessError ("Failed to get TCP table: " ++ toString c)) ∧
      load_udp_table api = .error (.ProcessError ("Failed to get UDP table: " ++ toString c))) ∧
    (api 0 0 = .insufficientBuffer r0 → api 1 r0 = .otherFailure c →
      load_tcp_table api = .error (.ProcessError ("Failed to get TCP table: " ++ toString c)) ∧
      load_udp_table api = .error (.ProcessError ("Failed to get UDP table: " ++ toString c))) ∧
    (api 0 0 = .success → load_tcp_table api = .ok 0 ∧ load_udp_table api = .ok 0) ∧
    (api 0 0 = .insufficientBuffer r0 → api 1 r0 = .success →
      load_tcp_table api = .ok r0 ∧ load_udp_table api = .ok r0) ∧
    (api 0 0 = .insufficientBuffer r0 → api 1 r0 = .insufficientBuffer r1 →
      api 2 r1 = .success →
      load_tcp_table api = .ok r1 ∧ load_udp_table api = .ok r1) := by
  refine ⟨fun h0 h1 h2 => ?_, fun h0 => ?_, fun h0 h1 => ?_, fun h0 => ?_,
    fun h0 h1 => ?_, fun h0 h1 h2 => ?_⟩ <;>
  · unfold load_tcp_table load_udp_table
    rw [show (3 : Nat) = 0 + 1 + 1 + 1 from rfl]
    simp only [load_table_loop_succ, load_table_loop_zero, h0]
    try simp only [h1]
    try simp only [h2]
    constructor <;> trivial

/-- Witness for C7: exhaustion after three insufficient-buffer replies, and
success on the second attempt with the reported size. -/
theorem load_table_retry_contract_witness :
    load_tcp_table apiAlwaysInsufficient = .error (.ProcessError "Failed to get TCP table") ∧
    load_tcp_table apiSucceedsSecond = .ok 100 :=
  ⟨((load_table_retry_contract apiAlwaysInsufficient 100 200 300 0).1 rfl rfl rfl).1,
   ((load_table_retry_contract apiSucceedsSecond 100 0 0 0).2.2.2.2.1 rfl rfl).1⟩

/-- C9: every retry-wrapped operation called with attempt count 0 behaves
exactly like one direct call of the single-shot operation: one attempt, the
same result, and zero accumulated delay.  The synchronous variants go
through the spec-modelled external combinator `retryCombinator`. -/
theorem retry_zero_single_attempt (q : PortQuery) (qp : ProcQuery)
    (envs : Nat → PlatformEnv) (syss : Nat → List ProcInfo) (delay : Nat) :
    q.execute_with_retry envs delay 0 0 = (q.execute (envs 0), 0) ∧
    q.execute_with_retry_sync envs delay 0 = (q.execute (envs 0), 0) ∧
    qp.children_with_retry syss delay 0 0 = (qp.children (syss 0), 0) ∧
    qp.children_with_retry_sync syss delay 0 = (qp.children (syss 0), 0) := by
  refine ⟨?_, ?_, ?_, ?_⟩
  · cases h : q.execute (envs 0) <;> simp [PortQuery.execute_with_retry, h]
  · cases h : q.execute (envs 0) <;>
      simp [PortQuery.execute_with_retry_sync, retryCombinator, h]
  · cases h : qp.children (syss 0) <;> simp [ProcQuery.children_with_retry, h]
  · cases h : qp.children (syss 0) <;>
      simp [ProcQuery.children_with_retry_sync, retryCombinator, h]

/-- C3 is false as stated: with `ip_v6_only()` configured, the Linux reader
still returns a port bound in the IPv4 TCP table (the procfs v4 tables are
always scanned; only the v6 tables are gated by the filter). -/
theorem ip_v6_only_still_yields_ipv4_port :
    ((PortQuery.new.ip_v6_only).process_id_set 9).execute
        (.linux ⟨.ok [some 5], .ok [⟨80, 10, 5⟩], .ok [], .ok [], .ok []⟩) =
      .ok [.Tcp 80] ∧
    ((PortQuery.new.ip_v6_only).process_id_set 9).ipv4_addresses = false :=
  ⟨rfl, rfl⟩

/-- C3 (amended): every returned port belongs to the target pid — on
Windows via the row's owning-pid field, on Linux via the inode join against
the process's socket fds, on macOS via the pid handed to the parsers — and
is drawn only from tables/invocations of the selected protocols; the
address-family filter is honoured on Windows and macOS, while on Linux the
IPv4 tables are scanned regardless, so `ip_v6_only()` can still yield
IPv4-bound ports; on Windows every port is tagged `Tcp`, UDP rows
included. -/
theorem execute_port_sources :
    (∀ q pid env l, list_ports_for_pid_windows q pid env = .ok l →
      ∀ x ∈ l, winRowSources q pid env x) ∧
    (∀ q env l, list_ports_for_pid_linux q env = .ok l →
      ∀ x ∈ l, linuxRowSources q env x) ∧
    (∀ q pid env o1 o2 o3 o4, env.tcp4Out = .ok o1 → env.udp4Out = .ok o2 →
      env.tcp6Out = .ok o3 → env.udp6Out = .ok o4 →
      list_ports_for_pid_macos q pid env = .ok (macosBlocks q pid o1 o2 o3 o4)) :=
  ⟨list_ports_windows_sources, list_ports_linux_sources,
   fun q pid env o1 o2 o3 o4 h1 h2 h3 h4 =>
     list_ports_macos_blocks q pid env o1 o2 o3 o4 h1 h2 h3 h4⟩

/-- Witness for the amended C3 on all three platforms at concrete
environments. -/
theorem execute_port_sources_witness :
    winRowSources PortQuery.new 7 ⟨.ok [⟨2, 80, 7⟩], .ok [], .ok [], .ok []⟩ (.Tcp 80) ∧
    linuxRowSources (PortQuery.new.ip_v6_only)
      ⟨.ok [some 5], .ok [⟨80, 10, 5⟩], .ok [], .ok [], .ok []⟩ (.Tcp 80) ∧
    list_ports_for_pid_macos PortQuery.new 7 ⟨.ok [], .ok [], .ok [], .ok []⟩ =
      .ok (macosBlocks PortQuery.new 7 [] [] [] []) :=
  ⟨execute_port_sources.1 PortQuery.new 7 ⟨.ok [⟨2, 80, 7⟩], .ok [], .ok [], .ok []⟩
      [.Tcp 80] rfl (.Tcp 80) (by simp),
   execute_port_sources.2.1 (PortQuery.new.ip_v6_only)
      ⟨.ok [some 5], .ok [⟨80, 10, 5⟩], .ok [], .ok [], .ok []⟩
      [.Tcp 80] rfl (.Tcp 80) (by simp),
   execute_port_sources.2.2 PortQuery.new 7 ⟨.ok [], .ok [], .ok [], .ok []⟩
      [] [] [] [] rfl rfl rfl rfl⟩

/-- C10: on every input byte vector and every target pid, the macOS parsers
terminate and produce a port list: in the embedding `none` marks an
out-of-bounds index or slice (a Rust panic) or fuel exhaustion
(non-termination), and neither ever occurs. -/
theorem find_ports_total (output : List Nat) (find_pid : Nat) :
    (find_ports_v4 output find_pid).isSome ∧ (find_ports_v6 output find_pid).isSome :=
  ⟨scanV4_isSome output find_pid (output.length + 4) none 0 [] (by omega)
      (fun _ => by omega) (fun h => by cases h),
   scanV6_isSome output find_pid (output.length + 4) none 0 [] (by omega)
      (fun _ => by omega) (fun h => by cases h)⟩

/-- C5 (amended): with `expect_min_num_children(n)` configured, when fewer
than `n` children are found, `children()` fails with `TooFewChildren`
carrying the count of found children (not the list itself, which the error
type cannot hold) and the expected count `n`. -/
theorem children_min_num_children_count (q : ProcQuery) (sys : List ProcInfo)
    (n pid : Nat) (hpid : q.process_id = some pid)
    (hmin : q.min_num_children = some n)
    (hlen : (sys.filter fun p => p.parent == some pid).length < n) :
    q.children sys = .error (.TooFewChildren
      (sys.filter fun p => p.parent == some pid).length n) := by
  simp [ProcQuery.children, resolve_pid, hpid, hmin, hlen, Bind.bind, Except.bind]

/-- C5 is false as stated: the `TooFewChildren` error produced for a
too-small result carries the number of found children (here 1, for the one
record with parent pid 1), not the list of records. -/
theorem children_error_carries_count :
    ProcQuery.children ((ProcQuery.new.process_id_set 1).expect_min_num_children 2)
      [⟨"child", [], none, 5, some 1, [], none⟩] = .error (.TooFewChildren 1 2) := rfl

/-- Witness for the amended C5: no children found against an expectation
of one. -/
theorem children_min_num_children_count_witness :
    ProcQuery.children ((ProcQuery.new.process_id_set 3).expect_min_num_children 1) []
      = .error (.TooFewChildren 0 1) :=
  children_min_num_children_count _ [] 1 3 rfl rfl (by decide)

/-- C8 is false as stated: a record whose pid field fails to parse drops
not just that record but the whole rest of the scan.  The second buffer
prefixes the first (well-formed, yielding port 80) with a record whose pid
field is the non-numeric byte `X`; the result is empty instead of
containing 80. -/
theorem pid_parse_failure_drops_whole_scan :
    find_ports_v4 [112, 55, 0, 10, 110, 58, 56, 48, 0, 10] 7 = some [80] ∧
    find_ports_v4 ([112, 88, 0, 10] ++ [112, 55, 0, 10, 110, 58, 56, 48, 0, 10]) 7 =
      some [] :=
  ⟨by decide, by decide⟩

/-- C8 (amended): in both parsers, a pid field that fails to parse as u32
stops the whole scan (whatever follows it), while a port field that fails
to parse as u16 is skipped, with parsing continuing in the same record and
with subsequent fields — here the unparsable port `a` (resp. `ab`) is
dropped and the following port 80 (resp. 81) is still found. -/
theorem numeric_parse_failure_behaviour (pidBytes rest : List Nat) (p : Nat)
    (hnz : ∀ b ∈ pidBytes, b ≠ 0)
    (hparse : parseUInt pidBytes 4294967295 = none) :
    find_ports_v4 (112 :: (pidBytes ++ 0 :: 10 :: rest)) p = some [] ∧
    find_ports_v6 (112 :: (pidBytes ++ 0 :: 10 :: rest)) p = some [] ∧
    find_ports_v4 [112, 55, 0, 10, 110, 58, 97, 0, 10, 110, 58, 56, 48, 0, 10] 7 =
      some [80] ∧
    find_ports_v6 [112, 55, 0, 10, 110, 91, 58, 58, 49, 93, 58, 97, 98, 0, 10,
      110, 91, 58, 58, 49, 93, 58, 56, 49, 0, 10] 7 = some [81] :=
  ⟨find_ports_v4_bad_pid pidBytes rest p hnz hparse,
   find_ports_v6_bad_pid pidBytes rest p hnz hparse,
   by decide, by decide⟩

/-- Witness for the amended C8: the non-numeric pid byte `X` ahead of a
well-formed record empties the scan. -/
theorem numeric_parse_failure_behaviour_witness :
    find_ports_v4 (112 :: ([88] ++ 0 :: 10 :: [112, 55, 0, 10, 110, 58, 56, 48, 0, 10]))
      7 = some [] :=
  (numeric_parse_failure_behaviour [88] [112, 55, 0, 10, 110, 58, 56, 48, 0, 10] 7
    (by decide) (by decide)).1

end ProcCtl
